import Mathlib

/-!
Shallow embedding of the blocksim node-communication core
(`blocksim/models/node.py`) and of the node factory
(`blocksim/node_factory.py`), together with theorems settling the
specification claims about them.

Modelling conventions:

* Python strings are `String`, Python ints are `Nat`.
* A Python `set` of strings is a `Finset String`.  `set.pop()` removes an
  element chosen by the runtime in an unspecified way; it is modelled by an
  eviction-choice function `choose : Finset String → String` together with
  the validity condition `validChoose` saying that on a nonempty set the
  chosen element is a member.  Statements about the code quantify over all
  valid choice functions.
* A Python `dict` keyed by strings is an insertion-ordered association list
  `List (String × α)`; assignment `d[k] = v` replaces the value at the first
  occurrence of `k` (keeping its position) and appends otherwise, exactly
  like a Python dict.
* Raising an exception is modelled by an error value (`PyError`); functions
  that can raise return the error alongside the state they leave behind.
* `Connection`, `Network`, `Chain` and `Block` are not part of the given
  sources; the parts of them this core touches are modelled from the spec
  (see the individual doc comments).  Node objects held by references in
  Python are identified by their unique `address`.
-/

/-- Maximum transactions hashes to keep in the known list (prevent DOS),
from `node.py`. -/
def MAX_KNOWN_TXS : Nat := 30000

/-- Maximum block hashes to keep in the known list (prevent DOS),
from `node.py`. -/
def MAX_KNOWN_BLOCKS : Nat := 1024

/-- Errors raised by the embedded code.  Each constructor records the data
interpolated into the corresponding Python exception message. -/
inductive PyError where
  /-- RuntimeError raised by `Node._get_neighbor`: message names the
  unreachable neighbor address and the address of the node itself. -/
  | neighborUnreachable (neighborAddr : String) (nodeAddr : String)
  /-- RuntimeError raised by `Node.send` / `Node.listening` when the stored
  connection is `None`. -/
  | noDirectConnection (neighborAddr : String)
  /-- TypeError: string-indexing a tuple (`neighbor['connection']` where
  `neighbor` is an `(address, state)` pair from `dict.items()`). -/
  | typeErrorTupleIndex
  /-- TypeError: the zero-argument default lambda of `blockchain_switcher`
  called with two positional arguments. -/
  | typeErrorArity
  /-- RuntimeError raised by `NodeFactory._check_location`: message names the
  unmeasured location and the list of available locations. -/
  | unknownLocation (loc : String) (available : List String)
  deriving DecidableEq

/-- Lookup in a Python dict modelled as an association list: the value at
the first entry whose key matches. -/
def dictGet {α : Type} (d : List (String × α)) (k : String) : Option α :=
  match d with
  | [] => none
  | p :: t => if p.1 = k then some p.2 else dictGet t k

/-- Assignment `d[k] = v` on a Python dict: replace the value at the first
occurrence of `k` keeping its position, append `(k, v)` otherwise. -/
def dictSet {α : Type} (d : List (String × α)) (k : String) (v : α) :
    List (String × α) :=
  match d with
  | [] => [(k, v)]
  | p :: t => if p.1 = k then (k, v) :: t else p :: dictSet t k v

/-- Validity of an eviction-choice function modelling `set.pop()`: on a
nonempty set it returns a member. -/
def validChoose (choose : Finset String → String) : Prop :=
  ∀ s : Finset String, s.Nonempty → choose s ∈ s

/-- Fuel-driven unfolding of the loop `while len(s) >= maxSize: s.pop()`.
Each iteration removes the element picked by `choose`. -/
def evictLoop (choose : Finset String → String) (maxSize : Nat) :
    Nat → Finset String → Finset String
  | 0, s => s
  | fuel + 1, s =>
      if maxSize ≤ s.card then
        evictLoop choose maxSize fuel (s.erase (choose s))
      else s

/-- The loop `while len(s) >= maxSize: s.pop()` from `_mark_block` /
`_mark_transaction`.  For a valid `choose`, fuel `s.card` is enough to reach
the exit condition. -/
def evict (choose : Finset String → String) (maxSize : Nat)
    (s : Finset String) : Finset String :=
  evictLoop choose maxSize s.card s

/-- The body of `_mark_block` / `_mark_transaction` acting on one known-set:
evict while at or above the bound, then `add` the new hash. -/
def markKnown (choose : Finset String → String) (maxSize : Nat)
    (s : Finset String) (h : String) : Finset String :=
  insert h (evict choose maxSize s)

/-- Envelope namedtuple from `node.py`: `(msg, timestamp, destination,
origin)`.  The destination and origin node objects are identified by their
addresses. -/
structure Envelope where
  msg : String
  timestamp : Nat
  destination : String
  origin : String
  deriving DecidableEq

/-- Modelled from the spec: a `Connection` is a directed edge between an
origin node and a destination node, created fresh by its constructor, with
an unbounded FIFO queue.  Each connection object is identified by a unique
`id` allocated at creation; its queue lives in `SimState.queues`. -/
structure Connection where
  id : Nat
  originAddr : String
  destAddr : String
  deriving DecidableEq

/-- Modelled from the spec: the virtual-time scheduler state (`env.now`, a
monotonically advanced clock), the allocator for fresh connection ids, and
the FIFO queue contents of every connection. -/
structure SimState where
  now : Nat
  nextConnId : Nat
  queues : Nat → List Envelope

/-- The per-neighbor dict installed by `add_neighbors` with keys
`connection`, `head`, `location`, `address`, `knownTxs`, `knownBlocks`. -/
structure NeighborState where
  connection : Option Connection
  head : String
  location : String
  address : String
  knownTxs : Finset String
  knownBlocks : Finset String
  deriving DecidableEq

/-- The mutable state of a `Node`: its identity fields, the head of its own
chain, and the `neighbors` dict. -/
structure NodeState where
  address : String
  location : String
  transmission_speed : Nat
  headHash : String
  neighbors : List (String × NeighborState)
  deriving DecidableEq

/-- The data `add_neighbors` reads from a neighbor node object: its
`address`, `location` and `chain.head`. -/
structure NodeRef where
  address : String
  location : String
  head : String
  deriving DecidableEq

/-- Node construction (`Node.__init__`): identity fields are stored, the
chain is seeded with the genesis block (modelled from the spec: `Chain`
starts at the given genesis block, whose hash we name `genesis`), and the
neighbors dict starts empty.  Joining the `Network` registry has no effect
on any state this development reasons about. -/
def initNode (address location : String) (transmission_speed : Nat) :
    NodeState :=
  { address := address
    location := location
    transmission_speed := transmission_speed
    headHash := "genesis"
    neighbors := [] }

/-- The view of a node passed (by reference) to `add_neighbors`. -/
def refOf (n : NodeState) : NodeRef :=
  ⟨n.address, n.location, n.headHash⟩

/-- Embedding of `Node.add_neighbors`: for each given node, create a fresh
`Connection(env, self, node)` and install the neighbor dict
`{'connection': conn, 'head': node.chain.head, 'location': node.location,
'address': node.address, 'knownTxs': {''}, 'knownBlocks': {''}}` under the
key `node.address`.  Note the source seeds both known-sets with the
singleton containing the empty string, not with an empty set. -/
def add_neighbors (sim : SimState) (self : NodeState)
    (nodes : List NodeRef) : SimState × NodeState :=
  nodes.foldl
    (fun (p : SimState × NodeState) node =>
      let conn : Connection := ⟨p.1.nextConnId, p.2.address, node.address⟩
      let sim' : SimState := { p.1 with nextConnId := p.1.nextConnId + 1 }
      let nb : NeighborState :=
        { connection := some conn
          head := node.head
          location := node.location
          address := node.address
          knownTxs := {""}
          knownBlocks := {""} }
      (sim', { p.2 with neighbors := dictSet p.2.neighbors node.address nb }))
    (sim, self)

/-- Embedding of `Node._update_neighbors`: store the neighbor dict back
under its own `address` field. -/
def _update_neighbors (self : NodeState) (new_neighbor : NeighborState) :
    NodeState :=
  { self with neighbors := dictSet self.neighbors new_neighbor.address new_neighbor }

/-- Embedding of `Node._get_neighbor`: dict lookup; raises RuntimeError
(`neighborUnreachable`) when the address has no entry. -/
def _get_neighbor (self : NodeState) (neighbor_address : String) :
    Except PyError NeighborState :=
  match dictGet self.neighbors neighbor_address with
  | none => .error (.neighborUnreachable neighbor_address self.address)
  | some neighbor => .ok neighbor

/-- Embedding of `Node._mark_block`.  On the error path of `_get_neighbor`
the exception propagates with the node state untouched; otherwise the
`knownBlocks` set is evicted-then-inserted and written back via
`_update_neighbors`. -/
def _mark_block (choose : Finset String → String) (self : NodeState)
    (block_hash : String) (neighbor_address : String) :
    NodeState × Option PyError :=
  match _get_neighbor self neighbor_address with
  | .error e => (self, some e)
  | .ok neighbor =>
      let known_blocks := markKnown choose MAX_KNOWN_BLOCKS
        neighbor.knownBlocks block_hash
      (_update_neighbors self { neighbor with knownBlocks := known_blocks },
        none)

/-- Embedding of `Node._mark_transaction`, symmetric to `_mark_block` on the
`knownTxs` set with bound `MAX_KNOWN_TXS`. -/
def _mark_transaction (choose : Finset String → String) (self : NodeState)
    (tx_hash : String) (neighbor_address : String) :
    NodeState × Option PyError :=
  match _get_neighbor self neighbor_address with
  | .error e => (self, some e)
  | .ok neighbor =>
      let known_txs := markKnown choose MAX_KNOWN_TXS
        neighbor.knownTxs tx_hash
      (_update_neighbors self { neighbor with knownTxs := known_txs }, none)

/-- Embedding of `Node.send`.  It looks up the neighbor (raising
`neighborUnreachable` if absent), checks the stored connection for `None`,
suspends 3 virtual-time units (handshake) then `upload_rate` units, builds
the envelope with the then-current clock and the connection endpoints, and
enqueues it on the connection (FIFO append, modelled from the spec for
`Connection.put`).  The returned triple is (node state, scheduler state,
raised error if any); on an error path both states are the ones at the
raise point. -/
def send (sim : SimState) (self : NodeState) (destination_address : String)
    (upload_rate : Nat) (msg : String) :
    NodeState × SimState × Option PyError :=
  match _get_neighbor self destination_address with
  | .error e => (self, sim, some e)
  | .ok neighbor =>
      match neighbor.connection with
      | none => (self, sim, some (.noDirectConnection destination_address))
      | some conn =>
          let sim1 : SimState := { sim with now := sim.now + 3 }
          let sim2 : SimState := { sim1 with now := sim1.now + upload_rate }
          let envl : Envelope := ⟨msg, sim2.now, conn.destAddr, conn.originAddr⟩
          (self,
            { sim2 with
                queues := fun i =>
                  if i = conn.id then sim2.queues i ++ [envl]
                  else sim2.queues i },
            none)

/-- One iteration of the `for neighbor in self.neighbors.items()` loop in
`Node.listening`.  The loop variable is the `(address, state)` pair produced
by `dict.items()`, so the very first statement of the body,
`neighbor['connection']`, string-indexes a tuple and raises
`TypeError: tuple indices must be integers`. -/
def listeningIter (item : String × NeighborState) :
    Except PyError Connection :=
  match item with
  | (_, _) => .error .typeErrorTupleIndex

/-- Embedding of `Node.listening`.  With at least one neighbor the first
loop iteration raises before any connection is read, so the rest of the
body (`None` check, receive loop, download delay) is unreachable; with no
neighbors the loop body never runs and the generator finishes. -/
def listening (self : NodeState) (download_rate : Nat) :
    Except PyError Unit := do
  let _ := download_rate
  for item in self.neighbors do
    let _connection ← listeningIter item
  return ()

/-- The world object seen by `NodeFactory`: the blockchain selector string
and the available locations (`world.locations`). -/
structure FactoryWorld where
  blockchain : String
  locations : List String

/-- Embedding of `NodeFactory._check_location`: iterate over
`list(miners.keys()) + list(non_miners)` and raise a RuntimeError naming
the first location absent from `world.locations` (and the available list)
if any. -/
def checkLocList (available : List String) :
    List String → Except PyError Unit
  | [] => .ok ()
  | l :: t =>
      if l ∈ available then checkLocList available t
      else .error (.unknownLocation l available)

/-- The location check applied to the keys of the miners and non-miners
request dicts, exactly as `_check_location` builds `nodes_location`. -/
def _check_location (world : FactoryWorld)
    (miners non_miners : List (String × Nat)) : Except PyError Unit :=
  checkLocList world.locations (miners.map Prod.fst ++ non_miners.map Prod.fst)

/-- Embedding of `NodeFactory.create_nodes`, parametric in the two
node-population builders (`create_bitcoin_nodes` / `create_ethereum_nodes`
construct `BTCNode` / `ETHNode` objects that are outside the given sources,
and no claim depends on their behavior).  After the location check, the
blockchain switcher dict is consulted with the zero-argument lambda
returning the string `Invalid blockchain` as default, and the selected
callable is invoked with the two positional arguments `(miners,
non_miners)`; invoking the zero-argument default with two arguments raises
a TypeError. -/
def create_nodes {α : Type} (create_bitcoin_nodes create_ethereum_nodes :
      List (String × Nat) → List (String × Nat) → α)
    (world : FactoryWorld) (miners non_miners : List (String × Nat)) :
    Except PyError α := do
  let _ ← _check_location world miners non_miners
  if world.blockchain = "bitcoin" then
    pure (create_bitcoin_nodes miners non_miners)
  else if world.blockchain = "ethereum" then
    pure (create_ethereum_nodes miners non_miners)
  else
    .error .typeErrorArity

/-- An operation an external driver can perform on one node: wiring
neighbors, marking a block hash, or marking a transaction hash. -/
inductive NodeOp where
  | addNbrs (refs : List NodeRef)
  | markB (h a : String)
  | markT (h a : String)

/-- Apply one operation to the (scheduler, node) state.  A mark call whose
neighbor lookup raises leaves the state exactly as it was (the exception
propagates to the driver). -/
def applyNodeOp (choose : Finset String → String)
    (p : SimState × NodeState) : NodeOp → SimState × NodeState
  | .addNbrs refs => add_neighbors p.1 p.2 refs
  | .markB h a => (p.1, (_mark_block choose p.2 h a).1)
  | .markT h a => (p.1, (_mark_transaction choose p.2 h a).1)

/-- Apply a sequence of operations in order. -/
def applyNodeOps (choose : Finset String → String)
    (p : SimState × NodeState) (ops : List NodeOp) : SimState × NodeState :=
  ops.foldl (applyNodeOp choose) p

/-- The bounded-known-sets invariant: every entry of the neighbors dict has
at most `MAX_KNOWN_BLOCKS` known block hashes and at most `MAX_KNOWN_TXS`
known transaction hashes. -/
def NodeInv (st : NodeState) : Prop :=
  ∀ q ∈ st.neighbors,
    (q.2 : NeighborState).knownBlocks.card ≤ MAX_KNOWN_BLOCKS ∧
      (q.2 : NeighborState).knownTxs.card ≤ MAX_KNOWN_TXS

/-- Repeatedly call `_mark_transaction` on the same neighbor with the
hashes of the list, in order. -/
def markTxFold (choose : Finset String → String) (self : NodeState)
    (addr : String) (hs : List String) : NodeState :=
  hs.foldl (fun n h => (_mark_transaction choose n h addr).1) self

/-- The effect of `markTxFold` on one known-set: fold the
evict-then-insert step over the hash list. -/
def markFold (choose : Finset String → String) (maxSize : Nat)
    (s : Finset String) (hs : List String) : Finset String :=
  hs.foldl (markKnown choose maxSize) s

/-- A concrete eviction-choice function used as a witness for the
unspecified order of `set.pop()`: it prefers popping `a`, then `aa`, and
otherwise takes the head of the sorted element list. -/
def chooseStar (s : Finset String) : String :=
  if "a" ∈ s then "a"
  else if "aa" ∈ s then "aa"
  else if h : s.Nonempty then s.min' h else ""

/-- The string of `n` letters `a`; pairwise-distinct hash material for the
large eviction scenarios. -/
def astr (n : Nat) : String := String.mk (List.replicate n 'a')

/-- The list of `k` pairwise-distinct nonempty hashes
`astr 1, astr 2, ..., astr k`, in insertion order. -/
def txHashList (k : Nat) : List String :=
  (List.range k).map (fun i => astr (i + 1))

/-- A scheduler state at virtual time 0 with no connections yet. -/
def sim0 : SimState := { now := 0, nextConnId := 0, queues := fun _ => [] }

/-- Concrete node `a` as constructed by `Node.__init__`. -/
def nodeA0 : NodeState := initNode "a" "geneva" 10

/-- Concrete node `b` as constructed by `Node.__init__`. -/
def nodeB0 : NodeState := initNode "b" "tokyo" 20

/-- State after `a.add_neighbors(b)`. -/
def wireAB : SimState × NodeState := add_neighbors sim0 nodeA0 [refOf nodeB0]

/-- State after `a.add_neighbors(b); b.add_neighbors(a)`. -/
def wireBA : SimState × NodeState :=
  add_neighbors wireAB.1 nodeB0 [refOf nodeA0]

/-- Node `a` with `b` wired as neighbor. -/
def nodeA1 : NodeState := wireAB.2

/-- Node `b` with `a` wired as neighbor. -/
def nodeB1 : NodeState := wireBA.2

/-- The scheduler state after both wiring calls, still at virtual time 0. -/
def simABBA : SimState := wireBA.1

/-- A node with a single freshly added neighbor `b`, for the repeated
`markTransaction` scenarios. -/
def nodeC6 : NodeState :=
  (add_neighbors sim0 (initNode "n" "geneva" 10) [⟨"b", "tokyo", "g"⟩]).2

/-- The neighbor record `add_neighbors` installs inside `nodeC6`. -/
def nbC6 : NeighborState :=
  { connection := some ⟨0, "n", "b"⟩
    head := "g"
    location := "tokyo"
    address := "b"
    knownTxs := {""}
    knownBlocks := {""} }

/-- The known-transactions set after the first 29999 marks of the repeated
scenario: the seed empty string plus the first 29999 hashes. -/
def S29999 : Finset String := insert "" (txHashList 29999).toFinset

/-- The known-transactions set after 30000 marks under `chooseStar`: the
30000th hash replaces the popped element `a`. -/
def S30000 : Finset String := insert (astr 30000) (S29999.erase "a")

/-- The known-transactions set after 30001 marks of distinct nonempty
hashes under `chooseStar`: the 30001st hash replaces the popped `aa`. -/
def S30001 : Finset String := insert (astr 30001) (S30000.erase "aa")

/-- The known-transactions set after the 30001st mark when that hash is the
empty string, which is already present: the insert is a no-op after the
pop, leaving 29999 elements. -/
def SDup : Finset String := insert "" (S30000.erase "aa")

/-! ### Association-list (Python dict) lemmas -/

theorem dictGet_dictSet_self {α : Type} (d : List (String × α)) (k : String)
    (v : α) : dictGet (dictSet d k v) k = some v := by
  induction d with
  | nil => simp [dictGet, dictSet]
  | cons p t ih =>
      by_cases hp : p.1 = k
      · simp [dictGet, dictSet, hp]
      · simp [dictGet, dictSet, hp, ih]

theorem dictGet_dictSet_ne {α : Type} (d : List (String × α))
    (k k' : String) (v : α) (hk : k' ≠ k) :
    dictGet (dictSet d k v) k' = dictGet d k' := by
  have hk' : ¬(k = k') := fun h => hk (Eq.symm h)
  induction d with
  | nil => simp [dictGet, dictSet, hk']
  | cons p t ih =>
      by_cases hp : p.1 = k
      · rw [show dictSet (p :: t) k v = (k, v) :: t by
          simp [dictSet, hp]]
        rw [show dictGet ((k, v) :: t) k' = dictGet t k' by
          simp [dictGet, hk']]
        rw [show dictGet (p :: t) k' = dictGet t k' by
          simp [dictGet, hp ▸ hk']]
      · rw [show dictSet (p :: t) k v = p :: dictSet t k v by
          simp [dictSet, hp]]
        by_cases hp' : p.1 = k'
        · rw [show dictGet (p :: dictSet t k v) k' = some p.2 by
            simp [dictGet, hp']]
          rw [show dictGet (p :: t) k' = some p.2 by simp [dictGet, hp']]
        · rw [show dictGet (p :: dictSet t k v) k' = dictGet (dictSet t k v) k' by
            simp [dictGet, hp']]
          rw [show dictGet (p :: t) k' = dictGet t k' by simp [dictGet, hp']]
          exact ih

theorem mem_dictSet {α : Type} (d : List (String × α)) (k : String) (v : α)
    (q : String × α) (hq : q ∈ dictSet d k v) : q ∈ d ∨ q = (k, v) := by
  induction d with
  | nil => simpa [dictSet] using hq
  | cons p t ih =>
      by_cases hp : p.1 = k
      · rw [show dictSet (p :: t) k v = (k, v) :: t by
          simp [dictSet, hp]] at hq
        rcases List.mem_cons.mp hq with h | h
        · exact Or.inr h
        · exact Or.inl (List.mem_cons_of_mem _ h)
      · rw [show dictSet (p :: t) k v = p :: dictSet t k v by
          simp [dictSet, hp]] at hq
        rcases List.mem_cons.mp hq with h | h
        · exact Or.inl (h ▸ List.mem_cons_self _ _)
        · rcases ih h with h' | h'
          · exact Or.inl (List.mem_cons_of_mem _ h')
          · exact Or.inr h'

theorem dictGet_mem {α : Type} (d : List (String × α)) (k : String) (v : α)
    (h : dictGet d k = some v) : (k, v) ∈ d := by
  induction d with
  | nil => simp [dictGet] at h
  | cons p t ih =>
      by_cases hp : p.1 = k
      · rw [show dictGet (p :: t) k = some p.2 by simp [dictGet, hp]] at h
        have hpv : p = (k, v) := by
          obtain ⟨p1, p2⟩ := p
          simp_all
        exact hpv ▸ List.mem_cons_self _ _
      · rw [show dictGet (p :: t) k = dictGet t k by simp [dictGet, hp]] at h
        exact List.mem_cons_of_mem _ (ih h)

/-! ### Eviction-loop lemmas -/

theorem evictLoop_of_lt (choose : Finset String → String) (maxSize : Nat)
    (fuel : Nat) (s : Finset String) (h : s.card < maxSize) :
    evictLoop choose maxSize fuel s = s := by
  cases fuel with
  | zero => rfl
  | succ n => simp [evictLoop, Nat.not_le_of_lt h]

theorem evictLoop_spec (choose : Finset String → String) (maxSize : Nat)
    (hvc : validChoose choose) (hM : 1 ≤ maxSize) :
    ∀ fuel s, s.card ≤ fuel → maxSize ≤ s.card →
      (evictLoop choose maxSize fuel s).card = maxSize - 1 ∧
        evictLoop choose maxSize fuel s ⊆ s := by
  intro fuel
  induction fuel with
  | zero =>
      intro s hfuel hge
      exact absurd (Nat.le_trans hM (Nat.le_trans hge hfuel)) (by simp)
  | succ n ih =>
      intro s hfuel hge
      have hne : s.Nonempty :=
        Finset.card_pos.mp (Nat.lt_of_lt_of_le hM hge)
      have hmem : choose s ∈ s := hvc s hne
      have hcard : (s.erase (choose s)).card = s.card - 1 :=
        Finset.card_erase_of_mem hmem
      have hfuel' : (s.erase (choose s)).card ≤ n := by
        omega
      simp only [evictLoop, if_pos hge]
      by_cases hge' : maxSize ≤ (s.erase (choose s)).card
      · obtain ⟨h1, h2⟩ := ih (s.erase (choose s)) hfuel' hge'
        exact ⟨h1, h2.trans (Finset.erase_subset _ _)⟩
      · have hlt : (s.erase (choose s)).card < maxSize :=
          Nat.lt_of_not_le hge'
        rw [evictLoop_of_lt choose maxSize n _ hlt]
        refine ⟨?_, Finset.erase_subset _ _⟩
        omega

theorem evict_of_lt (choose : Finset String → String) (maxSize : Nat)
    (s : Finset String) (h : s.card < maxSize) :
    evict choose maxSize s = s :=
  evictLoop_of_lt choose maxSize s.card s h

theorem evict_spec_ge (choose : Finset String → String) (maxSize : Nat)
    (hvc : validChoose choose) (hM : 1 ≤ maxSize) (s : Finset String)
    (hge : maxSize ≤ s.card) :
    (evict choose maxSize s).card = maxSize - 1 ∧
      evict choose maxSize s ⊆ s :=
  evictLoop_spec choose maxSize hvc hM s.card s (Nat.le_refl _) hge

theorem evict_subset (choose : Finset String → String) (maxSize : Nat)
    (hvc : validChoose choose) (hM : 1 ≤ maxSize) (s : Finset String) :
    evict choose maxSize s ⊆ s := by
  rcases Nat.lt_or_ge s.card maxSize with h | h
  · rw [evict_of_lt choose maxSize s h]
  · exact (evict_spec_ge choose maxSize hvc hM s h).2

theorem evict_eq_erase_at_cap (choose : Finset String → String)
    (maxSize : Nat) (hM : 1 ≤ maxSize) (s : Finset String)
    (hvc : validChoose choose) (hcap : s.card = maxSize) :
    evict choose maxSize s = s.erase (choose s) := by
  have hne : s.Nonempty := Finset.card_pos.mp (by omega)
  have hmem : choose s ∈ s := hvc s hne
  have hcard : (s.erase (choose s)).card = s.card - 1 :=
    Finset.card_erase_of_mem hmem
  obtain ⟨m, hm⟩ : ∃ m, s.card = m + 1 := ⟨s.card - 1, by omega⟩
  unfold evict
  rw [hm]
  simp only [evictLoop, if_pos (by omega : maxSize ≤ s.card)]
  exact evictLoop_of_lt choose maxSize m _ (by omega)

/-! ### Lemmas about one evict-then-insert step -/

theorem markKnown_card_le (choose : Finset String → String) (maxSize : Nat)
    (hvc : validChoose choose) (hM : 1 ≤ maxSize) (s : Finset String)
    (h : String) : (markKnown choose maxSize s h).card ≤ maxSize := by
  unfold markKnown
  rcases Nat.lt_or_ge s.card maxSize with hlt | hge
  · rw [evict_of_lt choose maxSize s hlt]
    calc (insert h s).card ≤ s.card + 1 := Finset.card_insert_le _ _
      _ ≤ maxSize := by omega
  · obtain ⟨h1, _⟩ := evict_spec_ge choose maxSize hvc hM s hge
    calc (insert h (evict choose maxSize s)).card
        ≤ (evict choose maxSize s).card + 1 := Finset.card_insert_le _ _
      _ ≤ maxSize := by omega

theorem markKnown_subset (choose : Finset String → String) (maxSize : Nat)
    (hvc : validChoose choose) (hM : 1 ≤ maxSize) (s : Finset String)
    (h : String) : markKnown choose maxSize s h ⊆ insert h s := by
  unfold markKnown
  exact Finset.insert_subset_insert h
    (evict_subset choose maxSize hvc hM s)

theorem markKnown_of_lt (choose : Finset String → String) (maxSize : Nat)
    (s : Finset String) (h : String) (hlt : s.card < maxSize) :
    markKnown choose maxSize s h = insert h s := by
  unfold markKnown
  rw [evict_of_lt choose maxSize s hlt]

theorem markKnown_card_at_cap (choose : Finset String → String)
    (maxSize : Nat) (hvc : validChoose choose) (hM : 1 ≤ maxSize)
    (s : Finset String) (h : String) (hcap : s.card = maxSize)
    (hh : h ∉ s) : (markKnown choose maxSize s h).card = maxSize := by
  unfold markKnown
  obtain ⟨h1, h2⟩ := evict_spec_ge choose maxSize hvc hM s (by omega)
  have hh' : h ∉ evict choose maxSize s := fun hc => hh (h2 hc)
  rw [Finset.card_insert_of_not_mem hh']
  omega

/-- The concrete pop-order witness is a valid model of `set.pop()`. -/
theorem chooseStar_valid : validChoose chooseStar := by
  intro s hs
  unfold chooseStar
  by_cases h1 : "a" ∈ s
  · rwa [if_pos h1]
  · rw [if_neg h1]
    by_cases h2 : "aa" ∈ s
    · rwa [if_pos h2]
    · rw [if_neg h2, dif_pos hs]
      exact s.min'_mem hs

/-! ### Preservation of the bounded-known-sets invariant -/

theorem nodeInv_mark_block (choose : Finset String → String)
    (hvc : validChoose choose) (st : NodeState) (hinv : NodeInv st)
    (bh a : String) : NodeInv (_mark_block choose st bh a).1 := by
  unfold _mark_block _get_neighbor
  cases hg : dictGet st.neighbors a with
  | none => simpa using hinv
  | some nb =>
      simp only [_update_neighbors, NodeInv]
      intro q hq
      rcases mem_dictSet _ _ _ q hq with h | h
      · exact hinv q h
      · have hbound := hinv (a, nb) (dictGet_mem _ _ _ hg)
        rw [h]
        refine ⟨?_, hbound.2⟩
        exact markKnown_card_le choose MAX_KNOWN_BLOCKS hvc (by decide)
          nb.knownBlocks bh

theorem nodeInv_mark_transaction (choose : Finset String → String)
    (hvc : validChoose choose) (st : NodeState) (hinv : NodeInv st)
    (th a : String) : NodeInv (_mark_transaction choose st th a).1 := by
  unfold _mark_transaction _get_neighbor
  cases hg : dictGet st.neighbors a with
  | none => simpa using hinv
  | some nb =>
      simp only [_update_neighbors, NodeInv]
      intro q hq
      rcases mem_dictSet _ _ _ q hq with h | h
      · exact hinv q h
      · have hbound := hinv (a, nb) (dictGet_mem _ _ _ hg)
        rw [h]
        refine ⟨hbound.1, ?_⟩
        exact markKnown_card_le choose MAX_KNOWN_TXS hvc (by decide)
          nb.knownTxs th

theorem nodeInv_add_neighbors (refs : List NodeRef) :
    ∀ (sim : SimState) (st : NodeState), NodeInv st →
      NodeInv (add_neighbors sim st refs).2 := by
  induction refs with
  | nil => intro sim st hinv; exact hinv
  | cons r rs ih =>
      intro sim st hinv
      refine ih _ _ ?_
      intro q hq
      rcases mem_dictSet _ _ _ q hq with h | h
      · exact hinv q h
      · rw [h]
        refine ⟨?_, ?_⟩ <;> norm_num [MAX_KNOWN_BLOCKS, MAX_KNOWN_TXS]

theorem nodeInv_applyNodeOp (choose : Finset String → String)
    (hvc : validChoose choose) (p : SimState × NodeState)
    (hinv : NodeInv p.2) (op : NodeOp) :
    NodeInv (applyNodeOp choose p op).2 := by
  cases op with
  | addNbrs refs => exact nodeInv_add_neighbors refs p.1 p.2 hinv
  | markB h a => exact nodeInv_mark_block choose hvc p.2 hinv h a
  | markT h a => exact nodeInv_mark_transaction choose hvc p.2 hinv h a

theorem nodeInv_applyNodeOps (choose : Finset String → String)
    (hvc : validChoose choose) (ops : List NodeOp) :
    ∀ p : SimState × NodeState, NodeInv p.2 →
      NodeInv (applyNodeOps choose p ops).2 := by
  induction ops with
  | nil => intro p hinv; exact hinv
  | cons op t ih =>
      intro p hinv
      exact ih _ (nodeInv_applyNodeOp choose hvc p hinv op)

/-! ### Hash-material lemmas -/

theorem astr_length (n : Nat) : (astr n).length = n := by
  simp [astr, String.length]

theorem astr_inj {m n : Nat} (h : astr m = astr n) : m = n := by
  have := congrArg String.length h
  rwa [astr_length, astr_length] at this

theorem astr_one : astr 1 = "a" := by decide

theorem astr_two : astr 2 = "aa" := by decide

theorem astr_succ_ne_empty (n : Nat) : astr (n + 1) ≠ "" := by
  intro h
  have h0 : astr (n + 1) = astr 0 := by rw [h]; decide
  exact Nat.succ_ne_zero n (astr_inj h0)

theorem txHashList_length (k : Nat) : (txHashList k).length = k := by
  simp [txHashList]

theorem txHashList_nodup (k : Nat) : (txHashList k).Nodup := by
  refine List.Nodup.map ?_ (List.nodup_range k)
  intro i j hij
  have := astr_inj hij
  omega

theorem mem_txHashList {x : String} {k : Nat} :
    x ∈ txHashList k ↔ ∃ i, i < k ∧ astr (i + 1) = x := by
  simp [txHashList]

theorem astr_mem_txHashList {j k : Nat} :
    astr (j + 1) ∈ txHashList k ↔ j < k := by
  rw [mem_txHashList]
  constructor
  · rintro ⟨i, hik, hi⟩
    have := astr_inj hi
    omega
  · intro h
    exact ⟨j, h, rfl⟩

theorem empty_not_mem_txHashList (k : Nat) : "" ∉ txHashList k := by
  rw [mem_txHashList]
  rintro ⟨i, _, hi⟩
  exact astr_succ_ne_empty i hi

theorem txHashList_succ (k : Nat) :
    txHashList (k + 1) = txHashList k ++ [astr (k + 1)] := by
  simp [txHashList, List.range_succ]

/-! ### Folding evict-then-insert over a hash list -/

theorem markFold_cons (choose : Finset String → String) (maxSize : Nat)
    (s : Finset String) (h : String) (t : List String) :
    markFold choose maxSize s (h :: t) =
      markFold choose maxSize (markKnown choose maxSize s h) t := rfl

theorem markFold_append (choose : Finset String → String) (maxSize : Nat)
    (s : Finset String) (l₁ l₂ : List String) :
    markFold choose maxSize s (l₁ ++ l₂) =
      markFold choose maxSize (markFold choose maxSize s l₁) l₂ := by
  simp [markFold, List.foldl_append]

theorem markFold_below_cap (choose : Finset String → String) (maxSize : Nat)
    (l : List String) :
    ∀ s : Finset String, l.Nodup → (∀ x ∈ l, x ∉ s) →
      s.card + l.length ≤ maxSize →
      markFold choose maxSize s l = s ∪ l.toFinset ∧
        (markFold choose maxSize s l).card = s.card + l.length := by
  induction l with
  | nil => intro s _ _ _; simp [markFold]
  | cons h t ih =>
      intro s hnd hfresh hle
      have hlt : s.card < maxSize := by
        have := hle
        simp [List.length_cons] at this
        omega
      have hh : h ∉ s := hfresh h (List.mem_cons_self _ _)
      rw [markFold_cons, markKnown_of_lt choose maxSize s h hlt]
      have hfresh' : ∀ x ∈ t, x ∉ insert h s := by
        intro x hx
        rw [Finset.mem_insert]
        rintro (hxh | hxs)
        · exact (List.nodup_cons.mp hnd).1 (hxh ▸ hx)
        · exact hfresh x (List.mem_cons_of_mem _ hx) hxs
      have hcard : (insert h s).card = s.card + 1 :=
        Finset.card_insert_of_not_mem hh
      have hle' : (insert h s).card + t.length ≤ maxSize := by
        rw [hcard]
        simpa [Nat.add_assoc, Nat.add_comm 1 t.length] using hle
      obtain ⟨heq, hc⟩ := ih (insert h s) (List.nodup_cons.mp hnd).2 hfresh' hle'
      constructor
      · rw [heq, List.toFinset_cons, Finset.insert_union, Finset.union_insert]
      · rw [hc, hcard]
        simp [List.length_cons]
        omega

theorem markFold_from_cap (choose : Finset String → String) (maxSize : Nat)
    (hvc : validChoose choose) (hM : 1 ≤ maxSize) (l : List String) :
    ∀ s : Finset String, s.card = maxSize → l.Nodup →
      (∀ x ∈ l, x ∉ s) →
      (markFold choose maxSize s l).card = maxSize ∧
        markFold choose maxSize s l ⊆ s ∪ l.toFinset := by
  induction l with
  | nil => intro s hcap _ _; exact ⟨hcap, by simp [markFold]⟩
  | cons h t ih =>
      intro s hcap hnd hfresh
      have hh : h ∉ s := hfresh h (List.mem_cons_self _ _)
      have hcard' : (markKnown choose maxSize s h).card = maxSize :=
        markKnown_card_at_cap choose maxSize hvc hM s h hcap hh
      have hsub' : markKnown choose maxSize s h ⊆ insert h s :=
        markKnown_subset choose maxSize hvc hM s h
      have hfresh' : ∀ x ∈ t, x ∉ markKnown choose maxSize s h := by
        intro x hx hmem
        rcases Finset.mem_insert.mp (hsub' hmem) with hxh | hxs
        · exact (List.nodup_cons.mp hnd).1 (hxh ▸ hx)
        · exact hfresh x (List.mem_cons_of_mem _ hx) hxs
      obtain ⟨hc, hs⟩ := ih (markKnown choose maxSize s h) hcard'
        (List.nodup_cons.mp hnd).2 hfresh'
      refine ⟨by rw [markFold_cons]; exact hc, ?_⟩
      rw [markFold_cons]
      refine hs.trans ?_
      intro x hx
      rcases Finset.mem_union.mp hx with hx1 | hx2
      · rcases Finset.mem_insert.mp (hsub' hx1) with hxh | hxs
        · exact Finset.mem_union_right _ (by simp [hxh])
        · exact Finset.mem_union_left _ hxs
      · exact Finset.mem_union_right _ (by simp [hx2])

/-! ### The concrete 30001-mark traces under the `chooseStar` pop order -/

theorem S29999_eq :
    markFold chooseStar MAX_KNOWN_TXS {""} (txHashList 29999) = S29999 := by
  obtain ⟨heq, _⟩ := markFold_below_cap chooseStar MAX_KNOWN_TXS
    (txHashList 29999) {""} (txHashList_nodup 29999)
    (fun x hx hmem => by
      rcases mem_txHashList.mp hx with ⟨i, _, hi⟩
      exact astr_succ_ne_empty i (hi.trans (Finset.mem_singleton.mp hmem)))
    (by rw [txHashList_length]; decide)
  rw [heq, S29999]
  ext x
  simp

theorem S29999_card : S29999.card = 30000 := by
  rw [S29999, Finset.card_insert_of_not_mem
    (by simpa using empty_not_mem_txHashList 29999),
    List.toFinset_card_of_nodup (txHashList_nodup 29999), txHashList_length]

theorem a_mem_S29999 : "a" ∈ S29999 := by
  rw [S29999, Finset.mem_insert]
  right
  rw [List.mem_toFinset, ← astr_one]
  exact astr_mem_txHashList.mpr (by omega)

theorem aa_mem_S29999 : "aa" ∈ S29999 := by
  rw [S29999, Finset.mem_insert]
  right
  rw [List.mem_toFinset, ← astr_two]
  exact astr_mem_txHashList.mpr (by omega)

theorem empty_mem_S29999 : "" ∈ S29999 := by
  rw [S29999]
  exact Finset.mem_insert_self _ _

theorem astr_big_not_mem_S29999 {k : Nat} (hk : 29999 ≤ k) :
    astr (k + 1) ∉ S29999 := by
  rw [S29999, Finset.mem_insert, List.mem_toFinset]
  rintro (h | h)
  · exact astr_succ_ne_empty k h
  · have := astr_mem_txHashList.mp h
    omega

theorem S30000_eq :
    markFold chooseStar MAX_KNOWN_TXS {""} (txHashList 30000) = S30000 := by
  have h1 : txHashList 30000 = txHashList 29999 ++ [astr 30000] :=
    txHashList_succ 29999
  rw [h1, markFold_append, S29999_eq]
  show markKnown chooseStar MAX_KNOWN_TXS S29999 (astr 30000) = S30000
  unfold markKnown
  rw [evict_eq_erase_at_cap chooseStar MAX_KNOWN_TXS (by decide)
    S29999 chooseStar_valid (by rw [S29999_card]; rfl)]
  rw [show chooseStar S29999 = "a" by
    unfold chooseStar
    rw [if_pos a_mem_S29999]]
  rfl

theorem S30000_card : S30000.card = 30000 := by
  have h1 : astr 30000 ∉ S29999.erase "a" := fun hmem =>
    astr_big_not_mem_S29999 (k := 29999) (by omega)
      (Finset.mem_of_mem_erase hmem)
  rw [S30000, Finset.card_insert_of_not_mem h1,
    Finset.card_erase_of_mem a_mem_S29999, S29999_card]

theorem a_not_mem_S30000 : "a" ∉ S30000 := by
  rw [S30000, Finset.mem_insert]
  rintro (h | h)
  · have h1 : astr 1 = astr 30000 := astr_one.trans h
    have := astr_inj h1
    omega
  · exact (Finset.mem_erase.mp h).1 rfl

theorem aa_mem_S30000 : "aa" ∈ S30000 := by
  rw [S30000, Finset.mem_insert]
  right
  rw [Finset.mem_erase]
  exact ⟨by decide, aa_mem_S29999⟩

theorem empty_mem_S30000 : "" ∈ S30000 := by
  rw [S30000, Finset.mem_insert]
  right
  rw [Finset.mem_erase]
  exact ⟨by decide, empty_mem_S29999⟩

theorem chooseStar_S30000 : chooseStar S30000 = "aa" := by
  rw [chooseStar, if_neg a_not_mem_S30000, if_pos aa_mem_S30000]

theorem astr_30001_not_mem_S30000 : astr 30001 ∉ S30000 := by
  rw [S30000, Finset.mem_insert]
  rintro (h | h)
  · have := astr_inj h
    omega
  · exact astr_big_not_mem_S29999 (k := 30000) (by omega)
      (Finset.mem_of_mem_erase h)

theorem evict_S30000 :
    evict chooseStar MAX_KNOWN_TXS S30000 = S30000.erase "aa" := by
  rw [evict_eq_erase_at_cap chooseStar MAX_KNOWN_TXS (by decide) S30000
    chooseStar_valid (by rw [S30000_card]; rfl), chooseStar_S30000]

theorem S30001_eq :
    markFold chooseStar MAX_KNOWN_TXS {""} (txHashList 30001) = S30001 := by
  have h1 : txHashList 30001 = txHashList 30000 ++ [astr 30001] :=
    txHashList_succ 30000
  rw [h1, markFold_append, S30000_eq]
  show markKnown chooseStar MAX_KNOWN_TXS S30000 (astr 30001) = S30001
  unfold markKnown
  rw [evict_S30000]
  rfl

theorem S30001_card : S30001.card = 30000 := by
  have h1 : astr 30001 ∉ S30000.erase "aa" := fun hmem =>
    astr_30001_not_mem_S30000 (Finset.mem_of_mem_erase hmem)
  rw [S30001, Finset.card_insert_of_not_mem h1,
    Finset.card_erase_of_mem aa_mem_S30000, S30000_card]

theorem a_not_mem_S30001 : "a" ∉ S30001 := by
  rw [S30001, Finset.mem_insert]
  rintro (h | h)
  · have h1 : astr 1 = astr 30001 := astr_one.trans h
    have := astr_inj h1
    omega
  · exact a_not_mem_S30000 (Finset.mem_of_mem_erase h)

theorem SDup_eq :
    markFold chooseStar MAX_KNOWN_TXS {""} (txHashList 30000 ++ [""]) =
      SDup := by
  rw [markFold_append, S30000_eq]
  show markKnown chooseStar MAX_KNOWN_TXS S30000 "" = SDup
  unfold markKnown
  rw [evict_S30000]
  rfl

theorem SDup_card : SDup.card = 29999 := by
  have h1 : "" ∈ S30000.erase "aa" :=
    Finset.mem_erase.mpr ⟨by decide, empty_mem_S30000⟩
  rw [SDup, Finset.insert_eq_self.mpr h1,
    Finset.card_erase_of_mem aa_mem_S30000, S30000_card]

/-! ### Node-level effect of repeated `_mark_transaction` calls -/

theorem markTxFold_lookup (choose : Finset String → String)
    (hs : List String) :
    ∀ (st : NodeState) (addr : String) (nb : NeighborState),
      dictGet st.neighbors addr = some nb → nb.address = addr →
      ∃ nb' : NeighborState,
        dictGet (markTxFold choose st addr hs).neighbors addr = some nb' ∧
          nb'.address = addr ∧
          nb'.knownTxs = markFold choose MAX_KNOWN_TXS nb.knownTxs hs := by
  induction hs with
  | nil =>
      intro st addr nb hget haddr
      exact ⟨nb, hget, haddr, rfl⟩
  | cons h t ih =>
      intro st addr nb hget haddr
      have hget' : dictGet (_mark_transaction choose st h addr).1.neighbors
          addr = some { nb with
            knownTxs := markKnown choose MAX_KNOWN_TXS nb.knownTxs h } := by
        unfold _mark_transaction _get_neighbor _update_neighbors
        rw [hget, ← haddr]
        exact dictGet_dictSet_self _ _ _
      obtain ⟨nb', h1, h2, h3⟩ := ih (_mark_transaction choose st h addr).1
        addr { nb with knownTxs := markKnown choose MAX_KNOWN_TXS nb.knownTxs h }
        hget' haddr
      refine ⟨nb', h1, h2, ?_⟩
      rw [markFold_cons]
      exact h3

/-! ### Effect of `add_neighbors` on the neighbors dict -/

theorem add_neighbors_cons (sim : SimState) (st : NodeState) (r : NodeRef)
    (rs : List NodeRef) :
    add_neighbors sim st (r :: rs) =
      add_neighbors { sim with nextConnId := sim.nextConnId + 1 }
        { st with neighbors := dictSet st.neighbors r.address (⟨some ⟨sim.nextConnId, st.address, r.address⟩, r.head, r.location, r.address, {""}, {""}⟩ : NeighborState) } rs := rfl

theorem add_neighbors_frame (refs : List NodeRef) (a : String)
    (ha : a ∉ refs.map NodeRef.address) :
    ∀ (sim : SimState) (st : NodeState),
      dictGet (add_neighbors sim st refs).2.neighbors a =
        dictGet st.neighbors a := by
  induction refs with
  | nil => intro sim st; rfl
  | cons r rs ih =>
      intro sim st
      have ha1 : a ≠ r.address := fun h => ha (by simp [h])
      have ha2 : a ∉ rs.map NodeRef.address := fun h => ha (by simp [h])
      rw [add_neighbors_cons, ih ha2, dictGet_dictSet_ne _ _ _ _ ha1]

theorem add_neighbors_lookup (refs : List NodeRef)
    (hnd : (refs.map NodeRef.address).Nodup) :
    ∀ (sim : SimState) (st : NodeState) (r : NodeRef), r ∈ refs →
      ∃ nb : NeighborState,
        dictGet (add_neighbors sim st refs).2.neighbors r.address = some nb ∧
          nb.head = r.head ∧ nb.location = r.location ∧
          nb.address = r.address ∧ nb.knownTxs = {""} ∧
          nb.knownBlocks = {""} := by
  induction refs with
  | nil => intro sim st r hr; cases hr
  | cons x rs ih =>
      intro sim st r hr
      rcases List.mem_cons.mp hr with hrx | hrs
      · subst hrx
        rw [List.map_cons] at hnd
        obtain ⟨hx, hnd'⟩ := List.nodup_cons.mp hnd
        rw [add_neighbors_cons, add_neighbors_frame rs r.address hx,
          dictGet_dictSet_self]
        exact ⟨_, rfl, rfl, rfl, rfl, rfl, rfl⟩
      · rw [List.map_cons] at hnd
        obtain ⟨hx, hnd'⟩ := List.nodup_cons.mp hnd
        rw [add_neighbors_cons]
        exact ih hnd' _ _ r hrs

/-! ### Location-check lemma -/

theorem checkLocList_first_bad (available : List String) :
    ∀ locs : List String, (∃ l ∈ locs, l ∉ available) →
      ∃ b, b ∈ locs ∧ b ∉ available ∧
        checkLocList available locs =
          .error (.unknownLocation b available) := by
  intro locs
  induction locs with
  | nil => rintro ⟨l, hl, _⟩; cases hl
  | cons x t ih =>
      rintro ⟨l, hl, hla⟩
      by_cases hx : x ∈ available
      · have hlt : l ∈ t := by
          rcases List.mem_cons.mp hl with h | h
          · exact absurd hx (h ▸ hla)
          · exact h
        obtain ⟨b, hb, hba, he⟩ := ih ⟨l, hlt, hla⟩
        refine ⟨b, List.mem_cons_of_mem _ hb, hba, ?_⟩
        unfold checkLocList
        rw [if_pos hx]
        exact he
      · refine ⟨x, List.mem_cons_self _ _, hx, ?_⟩
        unfold checkLocList
        rw [if_neg hx]

theorem txHashList_head (k : Nat) :
    (txHashList (k + 1)).head? = some (astr 1) := by
  simp [txHashList, List.range_succ_eq_map]

/-! ### Claims -/

/-- C1: for every node and every neighbor present in its neighbor map,
after any sequence of `markBlock` / `markTransaction` calls (interleaved
arbitrarily with the `addNeighbors` wiring that installs neighbors in the
first place, with arbitrary hashes), and at every intermediate point of the
sequence (every prefix `ops.take n`), every neighbor entry holds at most
`MAX_KNOWN_BLOCKS = 1024` known block hashes and at most
`MAX_KNOWN_TXS = 30000` known transaction hashes — for every valid eviction
order of `set.pop()`, because an existing member is evicted before each
insert into a full set. -/
theorem claim1_known_sets_bounded (choose : Finset String → String)
    (hvc : validChoose choose) (addr loc : String) (speed : Nat)
    (sim : SimState) (ops : List NodeOp) (n : Nat) :
    NodeInv (applyNodeOps choose (sim, initNode addr loc speed)
      (ops.take n)).2 := by
  refine nodeInv_applyNodeOps choose hvc (ops.take n) _ ?_
  intro q hq
  simp [initNode] at hq

/-- Witness for C1 at a concrete run: wire one neighbor, mark one
transaction and one block. -/
theorem claim1_known_sets_bounded_witness :
    NodeInv (applyNodeOps chooseStar (sim0, initNode "a" "geneva" 10)
      ([NodeOp.addNbrs [⟨"b", "tokyo", "g"⟩], NodeOp.markT "t1" "b",
        NodeOp.markB "b1" "b"].take 3)).2 :=
  claim1_known_sets_bounded chooseStar chooseStar_valid "a" "geneva" 10 sim0
    [NodeOp.addNbrs [⟨"b", "tokyo", "g"⟩], NodeOp.markT "t1" "b",
      NodeOp.markB "b1" "b"] 3

/-- C3: running `send` to a destination address with no entry in the
neighbor map fails with the neighbor-unreachable error and returns the node
state, the virtual clock and every connection queue exactly as they were:
the failure happens before any timed suspension and nothing is enqueued
anywhere. -/
theorem claim3_send_unreachable (sim : SimState) (st : NodeState)
    (dest : String) (upload_rate : Nat) (msg : String)
    (h : dictGet st.neighbors dest = none) :
    send sim st dest upload_rate msg =
      (st, sim, some (.neighborUnreachable dest st.address)) := by
  unfold send _get_neighbor
  rw [h]

/-- Witness for C3: a freshly constructed node has no neighbor `zz`. -/
theorem claim3_send_unreachable_witness :
    send sim0 nodeA0 "zz" 5 "tx1" =
      (nodeA0, sim0, some (.neighborUnreachable "zz" nodeA0.address)) :=
  claim3_send_unreachable sim0 nodeA0 "zz" 5 "tx1" rfl

/-- C5: `markBlock` and `markTransaction` for a neighbor address with no
entry in the node's neighbor map fail with the neighbor-unreachable
error. -/
theorem claim5_mark_unknown_fails (choose : Finset String → String)
    (st : NodeState) (bh th a : String)
    (h : dictGet st.neighbors a = none) :
    (_mark_block choose st bh a).2 =
        some (.neighborUnreachable a st.address) ∧
      (_mark_transaction choose st th a).2 =
        some (.neighborUnreachable a st.address) := by
  unfold _mark_block _mark_transaction _get_neighbor
  rw [h]
  exact ⟨rfl, rfl⟩

/-- Witness for C5 on a concrete node with no neighbor `zz`. -/
theorem claim5_mark_unknown_fails_witness :
    (_mark_block chooseStar nodeA0 "b1" "zz").2 =
        some (.neighborUnreachable "zz" nodeA0.address) ∧
      (_mark_transaction chooseStar nodeA0 "t1" "zz").2 =
        some (.neighborUnreachable "zz" nodeA0.address) :=
  claim5_mark_unknown_fails chooseStar nodeA0 "b1" "t1" "zz" rfl

/-- C7: running `send` to a registered neighbor returns the node state
(and in particular every neighbor's knownTransactions and knownBlocks set)
exactly unchanged: the deduplication bookkeeping is a separate explicit
`mark*` step that `send` neither consults nor updates. -/
theorem claim7_send_preserves_known_sets (sim : SimState) (st : NodeState)
    (dest : String) (upload_rate : Nat) (msg : String)
    (h : (dictGet st.neighbors dest).isSome) :
    (send sim st dest upload_rate msg).1 = st := by
  unfold send _get_neighbor
  rcases hg : dictGet st.neighbors dest with _ | nb
  · rfl
  · rcases hc : nb.connection with _ | conn <;> simp [hc]

/-- Witness for C7: the wired node `a` sending to its neighbor `b`. -/
theorem claim7_send_preserves_known_sets_witness :
    (send simABBA nodeA1 "b" 5 "tx1").1 = nodeA1 :=
  claim7_send_preserves_known_sets simABBA nodeA1 "b" 5 "tx1" (by decide)

/-- C10: a `markBlock` or `markTransaction` call whose neighbor lookup
fails leaves the entire node state untouched — the neighbor map with all
its known-sets, heads and connections is exactly the one before the call,
since the error is raised before any mutation. -/
theorem claim10_failed_mark_no_mutation (choose : Finset String → String)
    (st : NodeState) (bh th a : String)
    (h : dictGet st.neighbors a = none) :
    (_mark_block choose st bh a).1 = st ∧
      (_mark_transaction choose st th a).1 = st := by
  unfold _mark_block _mark_transaction _get_neighbor
  rw [h]
  exact ⟨rfl, rfl⟩

/-- Witness for C10 on a wired node: marking via an address that is not a
key of its neighbor map leaves the state (including the existing neighbor
entry) unchanged. -/
theorem claim10_failed_mark_no_mutation_witness :
    (_mark_block chooseStar nodeA1 "b1" "zz").1 = nodeA1 ∧
      (_mark_transaction chooseStar nodeA1 "t1" "zz").1 = nodeA1 :=
  claim10_failed_mark_no_mutation chooseStar nodeA1 "b1" "t1" "zz" rfl

/-- C2 counterexample: the claim says the installed known-sets are empty
(size 0).  In fact, immediately after wiring node `a` to node `b`, the
installed record's knownTxs and knownBlocks each contain the empty string
and have size 1, not 0 (`add_neighbors` writes the singleton of the empty
string, not an empty set). -/
theorem claim2_counterexample :
    (dictGet nodeA1.neighbors "b").map
        (fun nb => (nb.knownTxs.card, nb.knownBlocks.card)) = some (1, 1) ∧
      (dictGet nodeA1.neighbors "b").map
        (fun nb => (nb.knownTxs.card, nb.knownBlocks.card)) ≠
          some (0, 0) := by
  constructor
  · decide
  · decide

/-- C2 (amended): immediately after `addNeighbors` returns, the installed
NeighborState for each given node (including a node that was already a
neighbor and had items marked — any prior state of the neighbor map is
overwritten) has `knownTxs = {""}` and `knownBlocks = {""}`: each of size
exactly 1, containing only the empty-string sentinel (not size 0), and its
head equals the neighbor's current chain head. -/
theorem claim2_installs_sentinel_sets (sim : SimState) (st : NodeState)
    (refs : List NodeRef) (hnd : (refs.map NodeRef.address).Nodup)
    (r : NodeRef) (hr : r ∈ refs) :
    ∃ nb : NeighborState,
      dictGet (add_neighbors sim st refs).2.neighbors r.address = some nb ∧
        nb.head = r.head ∧ nb.knownTxs = {""} ∧ nb.knownBlocks = {""} ∧
        nb.knownTxs.card = 1 ∧ nb.knownBlocks.card = 1 := by
  obtain ⟨nb, h1, h2, _, _, h5, h6⟩ :=
    add_neighbors_lookup refs hnd sim st r hr
  exact ⟨nb, h1, h2, h5, h6, by rw [h5]; decide, by rw [h6]; decide⟩

/-- Witness for C2 (amended): node `a` re-adds neighbor `b` after marking a
transaction for it; the re-installed record is reset to the sentinel
sets. -/
theorem claim2_installs_sentinel_sets_witness :
    ∃ nb : NeighborState,
      dictGet (add_neighbors wireAB.1
          (_mark_transaction chooseStar nodeA1 "t1" "b").1
          [refOf nodeB0]).2.neighbors (refOf nodeB0).address = some nb ∧
        nb.head = (refOf nodeB0).head ∧ nb.knownTxs = {""} ∧
        nb.knownBlocks = {""} ∧ nb.knownTxs.card = 1 ∧
        nb.knownBlocks.card = 1 :=
  claim2_installs_sentinel_sets wireAB.1
    (_mark_transaction chooseStar nodeA1 "t1" "b").1 [refOf nodeB0]
    (by decide) (refOf nodeB0) (by decide)

/-- C4 (code bug): in the two-node wired scenario at virtual time 0,
`a.send(b.address, uploadRate := 5, "tx1")` does construct the envelope
with message `tx1`, timestamp `8` (3 handshake units plus 5 upload units)
and origin `a`, and enqueues it on the connection `a` holds to `b`
(connection id 0) — but node `b` never receives it: `b.listening` iterates
over `neighbors.items()` and its first statement string-indexes the
`(address, state)` tuple, failing with a TypeError before reading any
connection (moreover `b` would be reading the distinct connection object
created by `b.add_neighbors(a)`, not the one `a` sends on). -/
theorem claim4_listening_never_receives :
    (dictGet nodeB1.neighbors "a").isSome = true ∧
      listening nodeB1 2 = .error .typeErrorTupleIndex ∧
      (send simABBA nodeA1 "b" 5 "tx1").2.2 = none ∧
      (send simABBA nodeA1 "b" 5 "tx1").2.1.now = 8 ∧
      (send simABBA nodeA1 "b" 5 "tx1").2.1.queues 0 =
        [⟨"tx1", 8, "b", "a"⟩] := by
  exact ⟨rfl, rfl, rfl, rfl, rfl⟩

/-- C8: whenever some requested location (a key of the miners or
non-miners request) is not among the world's known locations, node
population construction fails with an error carrying the (first) invalid
location and the list of allowed locations — and it does so uniformly for
every pair of node-building functions, i.e. before any node is created. -/
theorem claim8_unknown_location_aborts {α : Type}
    (create_bitcoin_nodes create_ethereum_nodes :
      List (String × Nat) → List (String × Nat) → α)
    (world : FactoryWorld) (miners non_miners : List (String × Nat))
    (h : ∃ l ∈ miners.map Prod.fst ++ non_miners.map Prod.fst,
      l ∉ world.locations) :
    ∃ b, b ∈ miners.map Prod.fst ++ non_miners.map Prod.fst ∧
      b ∉ world.locations ∧
      create_nodes create_bitcoin_nodes create_ethereum_nodes world miners
        non_miners = .error (.unknownLocation b world.locations) := by
  obtain ⟨b, hb, hba, he⟩ := checkLocList_first_bad world.locations _ h
  refine ⟨b, hb, hba, ?_⟩
  unfold create_nodes _check_location
  rw [he]
  rfl

/-- Witness for C8: requesting miners at the unmeasured location `mars`
when only `ny` is available. -/
theorem claim8_unknown_location_aborts_witness :
    ∃ b, b ∈ ([("mars", 2)] : List (String × Nat)).map Prod.fst ++
        ([] : List (String × Nat)).map Prod.fst ∧
      b ∉ (⟨"bitcoin", ["ny"]⟩ : FactoryWorld).locations ∧
      create_nodes (fun _ _ => (0 : Nat)) (fun _ _ => (0 : Nat))
          ⟨"bitcoin", ["ny"]⟩ [("mars", 2)] [] =
        .error (.unknownLocation b
          (⟨"bitcoin", ["ny"]⟩ : FactoryWorld).locations) :=
  claim8_unknown_location_aborts (fun _ _ => (0 : Nat)) (fun _ _ => (0 : Nat))
    ⟨"bitcoin", ["ny"]⟩ [("mars", 2)] [] ⟨"mars", by decide, by decide⟩

/-- C9 (code bug): with a blockchain selector that is neither `bitcoin`
nor `ethereum` and all requested locations valid, `create_nodes` does NOT
return the string `Invalid blockchain`: the switcher's zero-argument
default lambda is invoked with two positional arguments, which raises a
TypeError. -/
theorem claim9_invalid_blockchain_type_error :
    create_nodes (fun _ _ => "bitcoin nodes") (fun _ _ => "ethereum nodes")
        ⟨"eos", ["ny"]⟩ [("ny", 1)] [] = .error .typeErrorArity ∧
      create_nodes (fun _ _ => "bitcoin nodes") (fun _ _ => "ethereum nodes")
          ⟨"eos", ["ny"]⟩ [("ny", 1)] [] ≠ .ok "Invalid blockchain" := by
  constructor
  · rfl
  · intro hcontra
    have h2 : (Except.error PyError.typeErrorArity : Except PyError String) =
        .ok "Invalid blockchain" := hcontra
    cases h2

/-- C6 counterexample: the claim promises a final size of exactly 30000
for EVERY choice of 30001 pairwise-distinct hashes.  But `add_neighbors`
seeds the known-set with the empty string, so when the empty string is
itself among the 30001 distinct hashes there is a valid pop order
(`chooseStar`) under which the 30001 calls leave `knownTransactions` with
only 29999 elements: the final call pops a different element and its
insert of the already-present empty string is a no-op. -/
theorem claim6_counterexample :
    (txHashList 30000 ++ [""]).length = 30001 ∧
      (txHashList 30000 ++ [""]).Nodup ∧
      validChoose chooseStar ∧
      (dictGet (markTxFold chooseStar nodeC6 "b"
            (txHashList 30000 ++ [""])).neighbors "b").map
          (fun nb => nb.knownTxs.card) = some 29999 := by
  refine ⟨by rw [List.length_append, txHashList_length,
    List.length_singleton], ?_, chooseStar_valid, ?_⟩
  · refine List.Nodup.append (txHashList_nodup 30000) (by simp) ?_
    intro x hx hmem
    rw [List.mem_singleton] at hmem
    exact empty_not_mem_txHashList 30000 (hmem ▸ hx)
  · obtain ⟨nb', h1, h2, h3⟩ := markTxFold_lookup chooseStar
      (txHashList 30000 ++ [""]) nodeC6 "b" nbC6 rfl rfl
    rw [h1]
    simp only [Option.map_some']
    rw [h3, show nbC6.knownTxs = ({""} : Finset String) from rfl,
      SDup_eq, SDup_card]

/-- C6 (amended): for every node with a freshly added neighbor (whose
known-transactions set is the sentinel `{""}` installed by
`add_neighbors`), calling `markTransaction` 30001 times with 30001
pairwise-distinct hashes, none of which is the empty string — the
counterexample shows the sentinel makes the empty-string hash an exception
— leaves `knownTransactions` with exactly 30000 elements, under every
valid pop order; and the first hash inserted is not guaranteed to still be
a member: under the valid pop order `chooseStar` with the distinct
nonempty hashes `astr 1, ..., astr 30001` (whose first element is
`astr 1`), the final set has exactly 30000 elements and `astr 1` is not
among them. -/
theorem claim6_final_size :
    (∀ (choose : Finset String → String), validChoose choose →
      ∀ (st : NodeState) (addr : String) (nb : NeighborState)
        (hs : List String),
        dictGet st.neighbors addr = some nb → nb.address = addr →
        nb.knownTxs = {""} → hs.length = 30001 → hs.Nodup → "" ∉ hs →
        ∃ nb' : NeighborState,
          dictGet (markTxFold choose st addr hs).neighbors addr =
              some nb' ∧
            nb'.knownTxs.card = 30000) ∧
      (∃ nb' : NeighborState,
        dictGet (markTxFold chooseStar nodeC6 "b"
            (txHashList 30001)).neighbors "b" = some nb' ∧
          nb'.knownTxs.card = 30000 ∧
          (txHashList 30001).head? = some (astr 1) ∧
          astr 1 ∉ nb'.knownTxs) := by
  constructor
  · intro choose hvc st addr nb hs hget haddr hfresh hlen hnd hne
    obtain ⟨nb', h1, h2, h3⟩ := markTxFold_lookup choose hs st addr nb
      hget haddr
    refine ⟨nb', h1, ?_⟩
    rw [h3, hfresh]
    have hsplit : hs.take 29999 ++ hs.drop 29999 = hs :=
      List.take_append_drop _ _
    have hnd2 := hnd
    rw [← hsplit, List.nodup_append] at hnd2
    obtain ⟨nd1, nd2, disj⟩ := hnd2
    have hlen1 : (hs.take 29999).length = 29999 := by
      rw [List.length_take, hlen]
      decide
    obtain ⟨hfe, hfc⟩ := markFold_below_cap choose MAX_KNOWN_TXS
      (hs.take 29999) {""} nd1
      (fun x hx hmem => hne ((Finset.mem_singleton.mp hmem) ▸
        List.take_subset _ _ hx))
      (by rw [Finset.card_singleton, hlen1]; decide)
    have hTcard : (({""} : Finset String) ∪ (hs.take 29999).toFinset).card =
        MAX_KNOWN_TXS := by
      rw [← hfe, hfc, Finset.card_singleton, hlen1]
      decide
    have hfresh2 : ∀ x ∈ hs.drop 29999,
        x ∉ ({""} : Finset String) ∪ (hs.take 29999).toFinset := by
      intro x hx hmem
      rcases Finset.mem_union.mp hmem with hm | hm
      · exact hne ((Finset.mem_singleton.mp hm) ▸ List.drop_subset _ _ hx)
      · exact disj (List.mem_toFinset.mp hm) hx
    obtain ⟨hc2, _⟩ := markFold_from_cap choose MAX_KNOWN_TXS hvc
      (by decide) (hs.drop 29999) _ hTcard nd2 hfresh2
    rw [← hsplit, markFold_append, hfe]
    exact hc2
  · obtain ⟨nb', h1, h2, h3⟩ := markTxFold_lookup chooseStar
      (txHashList 30001) nodeC6 "b" nbC6 rfl rfl
    refine ⟨nb', h1, ?_, txHashList_head 30000, ?_⟩
    · rw [h3, show nbC6.knownTxs = ({""} : Finset String) from rfl,
        S30001_eq, S30001_card]
    · rw [h3, show nbC6.knownTxs = ({""} : Finset String) from rfl,
        S30001_eq, astr_one]
      exact a_not_mem_S30001

/-- Witness for the universally quantified part of the amended C6, at the
concrete node `nodeC6`, the pop order `chooseStar` and the 30001 distinct
nonempty hashes `astr 1, ..., astr 30001`. -/
theorem claim6_final_size_witness :
    ∃ nb' : NeighborState,
      dictGet (markTxFold chooseStar nodeC6 "b"
          (txHashList 30001)).neighbors "b" = some nb' ∧
        nb'.knownTxs.card = 30000 :=
  claim6_final_size.1 chooseStar chooseStar_valid nodeC6 "b" nbC6
    (txHashList 30001) rfl rfl rfl (txHashList_length 30001)
    (txHashList_nodup 30001) (empty_not_mem_txHashList 30001)
